import Mathlib

/-!
# Verification of the client-side session/RPC layer

Shallow embedding of the SSE client code in `client.py` and
`resources/mcp_client.py`: the SSE line framing loop, frame dispatch
(`endpoint` / `message` / legacy session-id events), the pending-response
dictionary, request-id allocation, the `post`/`rpc` pipeline, and the
`call_tool` / `read_resource` conveniences.

Python's JSON values are modelled by the inductive `Json` (integers only for
numbers; the exchanged payloads carry no floats).  `json.loads` is a standard
library call, so the listener is parameterised over an arbitrary parse
function `p : String → Option Json` (`none` models a raised decode error).
Python dicts are modelled as association lists with first-match lookup,
replace-in-place insertion and order-preserving removal, matching dict
semantics for the unique-key dictionaries the client builds.
-/

/-- JSON-like values as produced by `json.loads` (numbers restricted to
integers, which is all the protocol exchanges). -/
inductive Json where
  | null
  | bool (b : Bool)
  | num (n : Int)
  | str (s : String)
  | arr (xs : List Json)
  | obj (fields : List (String × Json))
  deriving Repr

mutual

def Json.decEq : (a b : Json) → Decidable (a = b)
  | .null, .null => isTrue rfl
  | .null, .bool _ => isFalse (fun h => Json.noConfusion h)
  | .null, .num _ => isFalse (fun h => Json.noConfusion h)
  | .null, .str _ => isFalse (fun h => Json.noConfusion h)
  | .null, .arr _ => isFalse (fun h => Json.noConfusion h)
  | .null, .obj _ => isFalse (fun h => Json.noConfusion h)
  | .bool _, .null => isFalse (fun h => Json.noConfusion h)
  | .bool a, .bool b =>
      if h : a = b then isTrue (by rw [h]) else isFalse (fun hh => h (Json.bool.inj hh))
  | .bool _, .num _ => isFalse (fun h => Json.noConfusion h)
  | .bool _, .str _ => isFalse (fun h => Json.noConfusion h)
  | .bool _, .arr _ => isFalse (fun h => Json.noConfusion h)
  | .bool _, .obj _ => isFalse (fun h => Json.noConfusion h)
  | .num _, .null => isFalse (fun h => Json.noConfusion h)
  | .num _, .bool _ => isFalse (fun h => Json.noConfusion h)
  | .num a, .num b =>
      if h : a = b then isTrue (by rw [h]) else isFalse (fun hh => h (Json.num.inj hh))
  | .num _, .str _ => isFalse (fun h => Json.noConfusion h)
  | .num _, .arr _ => isFalse (fun h => Json.noConfusion h)
  | .num _, .obj _ => isFalse (fun h => Json.noConfusion h)
  | .str _, .null => isFalse (fun h => Json.noConfusion h)
  | .str _, .bool _ => isFalse (fun h => Json.noConfusion h)
  | .str _, .num _ => isFalse (fun h => Json.noConfusion h)
  | .str a, .str b =>
      if h : a = b then isTrue (by rw [h]) else isFalse (fun hh => h (Json.str.inj hh))
  | .str _, .arr _ => isFalse (fun h => Json.noConfusion h)
  | .str _, .obj _ => isFalse (fun h => Json.noConfusion h)
  | .arr _, .null => isFalse (fun h => Json.noConfusion h)
  | .arr _, .bool _ => isFalse (fun h => Json.noConfusion h)
  | .arr _, .num _ => isFalse (fun h => Json.noConfusion h)
  | .arr _, .str _ => isFalse (fun h => Json.noConfusion h)
  | .arr xs, .arr ys =>
      match Json.decEqList xs ys with
      | isTrue h => isTrue (by rw [h])
      | isFalse h => isFalse (fun hh => h (Json.arr.inj hh))
  | .arr _, .obj _ => isFalse (fun h => Json.noConfusion h)
  | .obj _, .null => isFalse (fun h => Json.noConfusion h)
  | .obj _, .bool _ => isFalse (fun h => Json.noConfusion h)
  | .obj _, .num _ => isFalse (fun h => Json.noConfusion h)
  | .obj _, .str _ => isFalse (fun h => Json.noConfusion h)
  | .obj _, .arr _ => isFalse (fun h => Json.noConfusion h)
  | .obj fs, .obj gs =>
      match Json.decEqFields fs gs with
      | isTrue h => isTrue (by rw [h])
      | isFalse h => isFalse (fun hh => h (Json.obj.inj hh))

def Json.decEqList : (a b : List Json) → Decidable (a = b)
  | [], [] => isTrue rfl
  | [], _ :: _ => isFalse (fun h => List.noConfusion h)
  | _ :: _, [] => isFalse (fun h => List.noConfusion h)
  | x :: xs, y :: ys =>
      match Json.decEq x y, Json.decEqList xs ys with
      | isTrue h₁, isTrue h₂ => isTrue (by rw [h₁, h₂])
      | isFalse h₁, _ =>
          isFalse (fun h => h₁ (List.head_eq_of_cons_eq h))
      | _, isFalse h₂ =>
          isFalse (fun h => h₂ (List.tail_eq_of_cons_eq h))

def Json.decEqFields : (a b : List (String × Json)) → Decidable (a = b)
  | [], [] => isTrue rfl
  | [], _ :: _ => isFalse (fun h => List.noConfusion h)
  | _ :: _, [] => isFalse (fun h => List.noConfusion h)
  | (k, v) :: xs, (k', v') :: ys =>
      if hk : k = k' then
        match Json.decEq v v', Json.decEqFields xs ys with
        | isTrue h₁, isTrue h₂ => isTrue (by rw [hk, h₁, h₂])
        | isFalse h₁, _ =>
            isFalse (fun h => h₁ (congrArg Prod.snd (List.head_eq_of_cons_eq h)))
        | _, isFalse h₂ =>
            isFalse (fun h => h₂ (List.tail_eq_of_cons_eq h))
      else
        isFalse (fun h => hk (congrArg Prod.fst (List.head_eq_of_cons_eq h)))

end

instance : DecidableEq Json := Json.decEq

/-- Pending Request Table: the Python dict `MCPClient._responses`, keyed by
whatever value the inbound message's `id` field held. -/
abbrev Table := List (Json × Json)

/-- First-match lookup, i.e. Python `d[k]` / `k in d` on a unique-key dict. -/
def dictLookup (d : List (Json × Json)) (k : Json) : Option Json :=
  match d with
  | [] => none
  | (k', v) :: rest => if k' = k then some v else dictLookup rest k

/-- Python `d[k] = v`: replace in place when the key is present, otherwise
append (dicts preserve insertion order). -/
def dictInsert (d : List (Json × Json)) (k : Json) (v : Json) : List (Json × Json) :=
  match d with
  | [] => [(k, v)]
  | (k', v') :: rest =>
      if k' = k then (k, v) :: rest else (k', v') :: dictInsert rest k v

/-- Python `del d[k]` (order-preserving removal of the key). -/
def dictErase (d : List (Json × Json)) (k : Json) : List (Json × Json) :=
  match d with
  | [] => []
  | (k', v') :: rest =>
      if k' = k then dictErase rest k else (k', v') :: dictErase rest k

/-- Python `d.pop(k)`: the removed value together with the remaining dict,
`none` when the key is absent. -/
def dictPop (d : List (Json × Json)) (k : Json) : Option (Json × List (Json × Json)) :=
  match dictLookup d k with
  | some v => some (v, dictErase d k)
  | none => none

theorem dictLookup_insert_self (d : List (Json × Json)) (k : Json) (v : Json) :
    dictLookup (dictInsert d k v) k = some v := by
  induction d with
  | nil => simp [dictInsert, dictLookup]
  | cons e rest ih =>
      obtain ⟨k', v'⟩ := e
      by_cases h : k' = k
      · simp [dictInsert, dictLookup, h]
      · simp [dictInsert, dictLookup, h, ih]

theorem dictLookup_insert_ne (d : List (Json × Json)) (k k' : Json) (v : Json)
    (h : k ≠ k') : dictLookup (dictInsert d k v) k' = dictLookup d k' := by
  induction d with
  | nil => simp [dictInsert, dictLookup, h]
  | cons e rest ih =>
      obtain ⟨k₀, v₀⟩ := e
      by_cases h₀ : k₀ = k
      · subst h₀
        simp [dictInsert, dictLookup, h]
      · simp [dictInsert, dictLookup, h₀, ih]

theorem dictLookup_erase_self (d : List (Json × Json)) (k : Json) :
    dictLookup (dictErase d k) k = none := by
  induction d with
  | nil => simp [dictErase, dictLookup]
  | cons e rest ih =>
      obtain ⟨k₀, v₀⟩ := e
      by_cases h₀ : k₀ = k
      · simp [dictErase, h₀, ih]
      · simp [dictErase, dictLookup, h₀, ih]

theorem dictLookup_erase_ne (d : List (Json × Json)) (k k' : Json)
    (h : k ≠ k') : dictLookup (dictErase d k) k' = dictLookup d k' := by
  induction d with
  | nil => simp [dictErase]
  | cons e rest ih =>
      obtain ⟨k₀, v₀⟩ := e
      by_cases h₀ : k₀ = k
      · simp [dictErase, dictLookup, h₀, ih, h]
      · simp [dictErase, dictLookup, h₀, ih]

theorem dictPop_eq_some (d : List (Json × Json)) (k : Json) (v : Json)
    (h : dictLookup d k = some v) : dictPop d k = some (v, dictErase d k) := by
  simp [dictPop, h]

theorem dictPop_eq_none (d : List (Json × Json)) (k : Json)
    (h : dictLookup d k = none) : dictPop d k = none := by
  simp [dictPop, h]

/-- Python `k in j` for a parsed JSON object (`False` on non-dicts, which is
how the code guards with `isinstance(msg, dict)`). -/
def jsonHasKey (j : Json) (k : String) : Bool :=
  match j with
  | .obj fs => fs.any (fun e => e.1 == k)
  | _ => false

/-- Python `j.get(k, dflt)` / `j[k]` on a parsed JSON object. -/
def jsonGetD (j : Json) (k : String) (dflt : Json) : Json :=
  match j with
  | .obj fs =>
      match fs.find? (fun e => e.1 == k) with
      | some e => e.2
      | none => dflt
  | _ => dflt

/-- Python's `str.strip` whitespace class (ASCII part). -/
def isPyWs (c : Char) : Bool :=
  c == ' ' || c == '\t' || c == '\n' || c == '\r' || c == '\x0b' || c == '\x0c'

/-- Python `s.strip()` (string primitives are implemented structurally on the
character list so that concrete runs reduce inside the kernel). -/
def strStrip (s : String) : String :=
  ⟨((s.data.dropWhile isPyWs).reverse.dropWhile isPyWs).reverse⟩

def startsWithL : List Char → List Char → Bool
  | _, [] => true
  | [], _ :: _ => false
  | c :: cs, p :: ps => c == p && startsWithL cs ps

/-- Python `s.startswith(p)`. -/
def strStartsWith (s p : String) : Bool :=
  startsWithL s.data p.data

/-- Python `s[n:]`. -/
def strDrop (s : String) (n : Nat) : String :=
  ⟨s.data.drop n⟩

/-- Python `sep.join(parts)`. -/
def strJoin (sep : String) (parts : List String) : String :=
  ⟨List.intercalate sep.data (parts.map String.data)⟩

/-- Split a character list at every occurrence of a single-character
separator (the list analogue of Python `s.split(sep)`). -/
def splitOnChar (sep : Char) : List Char → List (List Char)
  | [] => [[]]
  | c :: cs =>
      let r := splitOnChar sep cs
      if c == sep then [] :: r
      else
        match r with
        | [] => [[c]]
        | x :: xs => (c :: x) :: xs

/-- Split a string at the first occurrence of a one-character separator; the
second component is empty when the separator is absent. -/
def splitOnceChar (s : String) (sep : Char) : String × String :=
  match splitOnChar sep s.data with
  | [] => (s, "")
  | x :: rest => (⟨x⟩, ⟨List.intercalate [sep] rest⟩)

/-- Locate the first `"://"` and return the characters before it together
with the characters after it (recognising the scheme of an absolute URL). -/
def findSchemeSep (acc : List Char) : List Char → Option (List Char × List Char)
  | ':' :: '/' :: '/' :: rest => some (acc.reverse, rest)
  | c :: rest => findSchemeSep (c :: acc) rest
  | [] => none

/-- Split `netloc` from the path: the path begins at the first slash after
the authority. -/
def splitAuthority (s : List Char) : String × String :=
  match splitOnChar '/' s with
  | [] => (⟨s⟩, "")
  | [x] => (⟨x⟩, "")
  | x :: rest => (⟨x⟩, ⟨'/' :: List.intercalate ['/'] rest⟩)

/-- Result shape of `urllib.parse.urlparse`/`urlsplit` (an empty string
stands for an absent component). -/
structure UrlParts where
  scheme : String
  netloc : String
  path : String
  query : String
  fragment : String
  deriving Repr, DecidableEq

/-- Modelled from the Python standard library `urllib.parse.urlsplit`,
restricted to the hierarchical http-style URL shapes this client exchanges:
a scheme is recognised only through a "://" separator, percent-encoding is
not interpreted, and the empty query is identified with the absent query. -/
def urlsplitM (u : String) : UrlParts :=
  let pf := splitOnceChar u '#'
  let pq := splitOnceChar pf.1 '?'
  let core := pq.1
  if strStartsWith core "//" then
    let ap := splitAuthority (core.data.drop 2)
    ⟨"", ap.1, ap.2, pq.2, pf.2⟩
  else
    match findSchemeSep [] core.data with
    | some (s, rest) =>
        let ap := splitAuthority rest
        ⟨⟨s⟩, ap.1, ap.2, pq.2, pf.2⟩
    | none => ⟨"", "", core, pq.2, pf.2⟩

/-- Modelled from the Python standard library `urllib.parse.urlunsplit`
(inverse of `urlsplitM`, for the same restricted URL shapes). -/
def urlunsplitM (p : UrlParts) : String :=
  (if p.scheme ≠ "" then p.scheme ++ ":" else "") ++
  (if p.netloc ≠ "" then "//" ++ p.netloc else "") ++
  p.path ++
  (if p.query ≠ "" then "?" ++ p.query else "") ++
  (if p.fragment ≠ "" then "#" ++ p.fragment else "")

/-- RFC 3986 path merge used by `urljoin` for relative (non-rooted) paths. -/
def mergePaths (bnetloc bpath rpath : String) : String :=
  if bnetloc != "" && bpath == "" then ⟨'/' :: rpath.data⟩
  else
    match (splitOnChar '/' bpath.data).dropLast with
    | [] => rpath
    | segs => ⟨List.intercalate ['/'] segs ++ '/' :: rpath.data⟩

/-- Modelled from the Python standard library `urllib.parse.urljoin`,
restricted to the URL shapes the client exchanges (no dot-segment
normalisation; a reference carrying its own scheme is returned unchanged). -/
def urljoinM (base rel : String) : String :=
  if rel = "" then base
  else
    let b := urlsplitM base
    let r := urlsplitM rel
    if r.scheme ≠ "" then rel
    else if r.netloc ≠ "" then urlunsplitM ⟨b.scheme, r.netloc, r.path, r.query, r.fragment⟩
    else if r.path = "" then
      urlunsplitM ⟨b.scheme, b.netloc, b.path, (if r.query ≠ "" then r.query else b.query), r.fragment⟩
    else if strStartsWith r.path "/" then
      urlunsplitM ⟨b.scheme, b.netloc, r.path, r.query, r.fragment⟩
    else
      urlunsplitM ⟨b.scheme, b.netloc, mergePaths b.netloc b.path r.path, r.query, r.fragment⟩

/-- Modelled from the Python standard library `urllib.parse.parse_qsl` with
default arguments (fields without a value are dropped); percent-decoding and
plus-decoding are not modelled, the session ids exchanged being plain. -/
def parse_qsl (qs : String) : List (String × String) :=
  (splitOnChar '&' qs.data).filterMap fun field =>
    match splitOnChar '=' field with
    | [] => none
    | [_] => none
    | k :: vs =>
        let v : String := ⟨List.intercalate ['='] vs⟩
        if v = "" then none else some (⟨k⟩, v)

/-- `parse_qs(qs).get(key, [])`: all values bound to `key`, in order. -/
def parse_qs_get (qs key : String) : List String :=
  (parse_qsl qs).filterMap fun e => if e.1 = key then some e.2 else none

example :
    urljoinM "http://host:8000" "/mcp/message?session_id=abc123" =
      "http://host:8000/mcp/message?session_id=abc123" := by decide

example :
    parse_qs_get (urlsplitM "http://host:8000/mcp/message?session_id=abc123").query
      "session_id" = ["abc123"] := by decide

/-! ## SSE line framing

`MCPClient._sse_loop` and `client.listen_for_events` share the same framing
loop: a `current_event` dict accumulates the last `event:`-prefixed and
`data:`-prefixed payloads; a blank line completes the frame, which is
dispatched only when both fields are present. -/

/-- One complete SSE frame as dispatched at a blank line. -/
structure Frame where
  event : String
  data : String
  deriving Repr, DecidableEq

/-- The `current_event` dict: the `event` and `data` entries, absent until
their line kind has been seen. -/
abbrev CurEvent := Option String × Option String

/-- One iteration of the `for raw_line in response.iter_lines()` body of
`MCPClient._sse_loop` (identical in `client.listen_for_events`): strip the
line; a blank line completes the frame (dispatched only when both fields
are present) and resets the accumulator; `event:` / `data:` lines overwrite
their field with the stripped payload after the 7- resp. 6-character label;
any other line is ignored. -/
def stepLine (cur : CurEvent) (raw : String) : CurEvent × Option Frame :=
  let line := strStrip raw
  if line = "" then
    match cur with
    | (some e, some d) => ((none, none), some ⟨e, d⟩)
    | _ => ((none, none), none)
  else if strStartsWith line "event:" then
    ((some (strStrip (strDrop line 7)), cur.2), none)
  else if strStartsWith line "data:" then
    ((cur.1, some (strStrip (strDrop line 6))), none)
  else (cur, none)

/-- The framing loop over a list of received lines, returning the final
accumulator and every frame dispatched, in order. -/
def runLines (cur : CurEvent) : List String → CurEvent × List Frame
  | [] => (cur, [])
  | l :: ls =>
      let s := stepLine cur l
      let r := runLines s.1 ls
      (r.1, (match s.2 with | some f => [f] | none => []) ++ r.2)

/-! ## MCPClient: session state and frame dispatch -/

/-- The mutable state of an `MCPClient` instance shared between the SSE
listener thread and the coordinator: `post_url`, `session_id`, and the
pending-response dict `_responses`. -/
structure MCState where
  post_url : Option String
  session_id : Option String
  responses : Table
  deriving Repr, DecidableEq

/-- A synchronisation action performed by the listener under `_cond`. -/
inductive Sig where
  | notifyAll
  deriving Repr, DecidableEq

/-- The value bound to `msg` by the `message` branch of `_sse_loop`: the
parsed payload, or the `{"malformed": data}` wrapper when `json.loads`
raises (`p` models `json.loads`; `none` models a raised decode error). -/
def mcMessageValue (p : String → Option Json) (d : String) : Json :=
  match p d with
  | some m => m
  | none => .obj [("malformed", .str d)]

/-- Frame dispatch in `MCPClient._sse_loop` (the body guarded by
`if 'event' in current_event and 'data' in current_event`): `endpoint`
frames resolve the payload against `server_base_url`, adopt a `session_id`
query parameter when present, unconditionally set `post_url` and notify all
waiters; `message` frames parse the payload and, when the result is a dict
containing an `id`, store it in `_responses` under that id and notify all
waiters; every other event type is ignored. -/
def mcHandleFrame (p : String → Option Json) (base : String) (st : MCState)
    (f : Frame) : MCState × List Sig :=
  if f.event = "endpoint" then
    let absolute := urljoinM base f.data
    let sid := parse_qs_get (urlsplitM absolute).query "session_id"
    let st1 :=
      match sid with
      | s :: _ => { st with session_id := some s }
      | [] => st
    ({ st1 with post_url := some absolute }, [.notifyAll])
  else if f.event = "message" then
    let msg := mcMessageValue p f.data
    match msg with
    | .obj _ =>
        if jsonHasKey msg "id" then
          ({ st with responses := dictInsert st.responses (jsonGetD msg "id" .null) msg },
            [.notifyAll])
        else (st, [])
    | _ => (st, [])
  else (st, [])

/-! ## client.py: module state and frame dispatch -/

/-- The module-level state of `client.py`: `SESSION_STATE["id"]`,
`SESSION_STATE["post_url"]` and the `SESSION_READY` event. -/
structure PyState where
  sid : Option String
  post_url : Option String
  ready : Bool
  deriving Repr, DecidableEq

/-- `client.SERVER_BASE_URL`. -/
def SERVER_BASE_URL : String := "http://127.0.0.1:8000"

/-- Frame dispatch in `client.listen_for_events`: one of the three legacy
session-id event types adopts the payload as `SESSION_STATE["id"]` without
touching `SESSION_READY`; an `endpoint` frame resolves the payload against
`SERVER_BASE_URL`, adopts a `session_id` query parameter when present, sets
`SESSION_STATE["post_url"]` and sets `SESSION_READY`; a `message` frame only
prints the parsed payload (a decode error there kills the listener thread,
an effect outside this per-frame state function); anything else is
ignored. -/
def listenHandleFrame (st : PyState) (f : Frame) : PyState :=
  if f.event = "mcp-session-id" ∨ f.event = "session-id" ∨ f.event = "mcp_session_id" then
    { st with sid := some f.data }
  else if f.event = "endpoint" then
    let absolute := urljoinM SERVER_BASE_URL f.data
    let q := parse_qs_get (urlsplitM absolute).query "session_id"
    let st1 :=
      match q with
      | s :: _ => { st with sid := some s }
      | [] => st
    { st1 with post_url := some absolute, ready := true }
  else st

/-! ## Session/RPC coordinator (`MCPClient.post` / `rpc`) -/

/-- Request-id allocation in `MCPClient.rpc`:
`int(time.time() * 1000) % 2_147_483_647`, as a function of the millisecond
clock reading at the call. -/
def mcAllocId (nowMs : Nat) : Nat := nowMs % 2147483647

/-- The JSON-RPC envelope built by `rpc` (the `params` key is added only when
params were given). -/
def rpcPayload (reqId : Nat) (method : String) (params? : Option Json) : Json :=
  .obj ([("jsonrpc", .str "2.0"), ("id", .num reqId), ("method", .str method)] ++
    (match params? with | some ps => [("params", ps)] | none => []))

/-- `MCPClient.post`: when `post_url` is unset (or empty — Python
truthiness) it raises `RuntimeError("No MCP post URL available")` before any
HTTP request, modelled as `none`; otherwise it POSTs the payload to
`post_url`, modelled as the `(url, payload)` pair sent.  The method's
`int(req_id)`-or-`-1` return value is unused by its callers, and transport
errors raised by `raise_for_status` are external to the model. -/
def mcPost (st : MCState) (payload : Json) : Option (String × Json) :=
  match st.post_url with
  | none => none
  | some u => if u = "" then none else some (u, payload)

/-- Outcome of one `rpc` call: the `RuntimeError` raised by `post` on a
missing post URL, a response popped from `_responses` (with the client state
as the call leaves it), or the `TimeoutError` naming the method. -/
inductive RpcResult where
  | noPostUrl
  | success (resp : Json) (st : MCState)
  | timedOut (method : String)
  deriving Repr, DecidableEq

/-- The `while time.time() < deadline` wait loop of `rpc`, as a function of
the successive snapshots of `_responses` it observes under `_cond` — the
first snapshot taken before any wait, each later one after one
`cond.wait` increment, the timeout bounding how many snapshots are observed.
The entry for the request id is popped and returned at the first snapshot
containing it; exhausting the snapshots is the timeout. -/
def rpcLoop (k : Json) : List Table → Option (Json × Table)
  | [] => none
  | t :: ts =>
      match dictPop t k with
      | some r => some r
      | none => rpcLoop k ts

/-- `MCPClient.rpc(method, params, timeout)`: allocate the request id from
the clock, build the envelope, `post` it (propagating the missing-post-URL
failure before anything is sent), then run the wait loop over the observed
`_responses` snapshots; its first component lists the HTTP POSTs
performed. -/
def mcRpc (st : MCState) (nowMs : Nat) (method : String) (params? : Option Json)
    (tables : List Table) : List (String × Json) × RpcResult :=
  let reqId := mcAllocId nowMs
  let payload := rpcPayload reqId method params?
  match mcPost st payload with
  | none => ([], .noPostUrl)
  | some send =>
      ([send],
        match rpcLoop (.num reqId) tables with
        | some r => .success r.1 { st with responses := r.2 }
        | none => .timedOut method)

/-- `client.send_mcp_request`: when `SESSION_STATE["post_url"]` is unset the
function prints `"No POST URL available yet."` and returns without any HTTP
request (`none`); otherwise it POSTs the JSON-RPC envelope, with
`id = int(time.time())`, to the post URL. -/
def sendMcpRequest (st : PyState) (nowS : Nat) (method : String) (params : Json) :
    Option (String × Json) :=
  match st.post_url with
  | none => none
  | some u =>
      if u = "" then none
      else
        some (u, .obj [("jsonrpc", .str "2.0"), ("id", .num nowS),
          ("method", .str method), ("params", params)])

/-! ## `call_tool` / `read_resource` on a received reply -/

/-- String escaping of `json.dumps`, restricted to the escapes the exchanged
payloads can need (`ensure_ascii` transliteration of non-ASCII text is not
modelled). -/
def jsonEscape (s : String) : String :=
  ⟨(s.data.map fun c =>
      if c == '"' then ['\\', '"']
      else if c == '\\' then ['\\', '\\']
      else if c == '\n' then ['\\', 'n']
      else if c == '\t' then ['\\', 't']
      else if c == '\r' then ['\\', 'r']
      else [c]).flatten⟩

mutual

/-- Modelled from the Python standard library `json.dumps` with its default
separators (`", "` and `": "`), keys kept in insertion order. -/
def jdumps : Json → String
  | .null => "null"
  | .bool true => "true"
  | .bool false => "false"
  | .num n => toString n
  | .str s => "\"" ++ jsonEscape s ++ "\""
  | .arr xs => "[" ++ strJoin ", " (jdumpsList xs) ++ "]"
  | .obj fs => "\x7b" ++ strJoin ", " (jdumpsFields fs) ++ "\x7d"

def jdumpsList : List Json → List String
  | [] => []
  | x :: xs => jdumps x :: jdumpsList xs

def jdumpsFields : List (String × Json) → List String
  | [] => []
  | (k, v) :: fs => ("\"" ++ jsonEscape k ++ "\": " ++ jdumps v) :: jdumpsFields fs

end

/-- `MCPClient.call_tool` applied to the reply its `tools/call` rpc
returned: the serialized `error` field when present, otherwise the
serialized `result` field (defaulting to `{}`); a total function of the
reply — an application-level error reply is returned as data, never
raised. -/
def callToolResult (resp : Json) : String :=
  if jsonHasKey resp "error" then jdumps (jsonGetD resp "error" .null)
  else jdumps (jsonGetD resp "result" (.obj []))

/-- Python `str()` on the scalar values a `text` entry holds (container
reprs differ from JSON but are not exchanged as `text`). -/
def pyStr : Json → String
  | .str s => s
  | .num n => toString n
  | .bool true => "True"
  | .bool false => "False"
  | .null => "None"
  | j => jdumps j

/-- The `<binary content N base64 chars>` placeholder, `N` being the length
of the `blob` string. -/
def blobPlaceholder (b : Json) : String :=
  let n := match b with | .str s => s.length | _ => 0
  "<binary content " ++ toString n ++ " base64 chars>"

/-- `MCPClient.read_resource` applied to the reply its `resources/read` rpc
returned: the serialized `error` field when present; otherwise the `text`
entries of `result.contents` (and blob placeholders) joined by newlines,
falling back to the serialized `result` when no part was collected.  (On a
non-dict `result` the Python code would raise at `result.get`; the model
takes the default instead — no claim exercises that shape.) -/
def readResourceResult (resp : Json) : String :=
  if jsonHasKey resp "error" then jdumps (jsonGetD resp "error" .null)
  else
    let result := jsonGetD resp "result" (.obj [])
    let contents :=
      match jsonGetD result "contents" (.arr []) with
      | .arr xs => xs
      | _ => []
    let parts := contents.filterMap fun c =>
      if jsonHasKey c "text" && !(jsonGetD c "text" .null == .null) then
        some (pyStr (jsonGetD c "text" .null))
      else if jsonHasKey c "blob" && !(jsonGetD c "blob" .null == .null) then
        some (blobPlaceholder (jsonGetD c "blob" .null))
      else none
    if parts = [] then jdumps result else strJoin "\n" parts

example : jdumps (.obj [("code", .num (-32000)), ("message", .str "boom")]) =
    "\x7b\"code\": -32000, \"message\": \"boom\"\x7d" := by decide

/-! ## Helper lemmas on the wait loop and the message dispatch -/

theorem rpcLoop_eq_none (k : Json) (tables : List Table)
    (h : ∀ t ∈ tables, dictLookup t k = none) : rpcLoop k tables = none := by
  induction tables with
  | nil => rfl
  | cons t ts ih =>
      have ht := h t (List.mem_cons_self t ts)
      simp [rpcLoop, dictPop, ht]
      exact ih fun t' ht' => h t' (List.mem_cons_of_mem t ht')

theorem rpcLoop_none_all (k : Json) (tables : List Table)
    (h : rpcLoop k tables = none) : ∀ t ∈ tables, dictLookup t k = none := by
  induction tables with
  | nil => intro t ht; cases ht
  | cons t ts ih =>
      intro t' ht'
      rcases List.mem_cons.mp ht' with rfl | hmem
      · by_contra hne
        rcases Option.ne_none_iff_exists'.mp hne with ⟨v, hv⟩
        simp [rpcLoop, dictPop, hv] at h
      · rcases hl : dictLookup t k with _ | v
        · exact ih (by simpa [rpcLoop, dictPop, hl] using h) t' hmem
        · simp [rpcLoop, dictPop, hl] at h

theorem rpcLoop_some_src (k : Json) (tables : List Table) (v : Json) (t' : Table)
    (h : rpcLoop k tables = some (v, t')) :
    ∃ t ∈ tables, dictLookup t k = some v ∧ t' = dictErase t k := by
  induction tables with
  | nil => cases h
  | cons t ts ih =>
      rcases hl : dictLookup t k with _ | w
      · have h' : rpcLoop k ts = some (v, t') := by
          simpa [rpcLoop, dictPop, hl] using h
        rcases ih h' with ⟨t₀, hmem, hfound⟩
        exact ⟨t₀, List.mem_cons_of_mem t hmem, hfound⟩
      · have : w = v ∧ dictErase t k = t' := by
          have := h
          simp [rpcLoop, dictPop, hl] at this
          exact ⟨this.1, this.2⟩
        exact ⟨t, List.mem_cons_self t ts, by rw [hl, this.1], this.2.symm⟩

theorem rpcLoop_found (k : Json) (tables : List Table)
    (h : ∃ t ∈ tables, (dictLookup t k).isSome) :
    ∃ r, rpcLoop k tables = some r := by
  induction tables with
  | nil => rcases h with ⟨t, ht, _⟩; cases ht
  | cons t ts ih =>
      rcases hl : dictLookup t k with _ | w
      · rcases h with ⟨t₀, ht₀, hs⟩
        rcases List.mem_cons.mp ht₀ with rfl | hmem
        · rw [hl] at hs; cases hs
        · rcases ih ⟨t₀, hmem, hs⟩ with ⟨r, hr⟩
          exact ⟨r, by simp [rpcLoop, dictPop, hl, hr]⟩
      · exact ⟨(w, dictErase t k), by simp [rpcLoop, dictPop, hl]⟩

theorem mcHandleFrame_message_store (p : String → Option Json) (base : String)
    (st : MCState) (d : String) (msg : Json)
    (hp : p d = some msg) (hk : jsonHasKey msg "id" = true) :
    mcHandleFrame p base st ⟨"message", d⟩ =
      ({ st with responses := dictInsert st.responses (jsonGetD msg "id" .null) msg },
        [.notifyAll]) := by
  cases msg with
  | obj fs => simp [mcHandleFrame, mcMessageValue, hp, hk]
  | null => simp [jsonHasKey] at hk
  | bool b => simp [jsonHasKey] at hk
  | num n => simp [jsonHasKey] at hk
  | str s => simp [jsonHasKey] at hk
  | arr xs => simp [jsonHasKey] at hk

/-- C3: while `post_url` is unset, `rpc` (through `MCPClient.post`) raises
`RuntimeError` before any HTTP request is made, and `client.send_mcp_request`
returns early: in both clients no POST is ever sent to an empty target. -/
theorem rpc_no_post_before_postURL (st : MCState) (nowMs : Nat) (method : String)
    (params? : Option Json) (tables : List Table) (stp : PyState) (nowS : Nat)
    (m2 : String) (ps : Json)
    (h : st.post_url = none) (hp : stp.post_url = none) :
    mcRpc st nowMs method params? tables = ([], .noPostUrl) ∧
    mcPost st (rpcPayload (mcAllocId nowMs) method params?) = none ∧
    sendMcpRequest stp nowS m2 ps = none := by
  refine ⟨?_, ?_, ?_⟩
  · simp [mcRpc, mcPost, h]
  · simp [mcPost, h]
  · simp [sendMcpRequest, hp]

/-- C3 witness: a client that has not yet received its endpoint frame sends
nothing and fails with the missing-post-URL error. -/
theorem rpc_no_post_before_postURL_witness :
    mcRpc ⟨none, none, []⟩ 1234 "tools/call" none [] = ([], .noPostUrl) ∧
    sendMcpRequest ⟨none, none, false⟩ 99 "initialize" (.obj []) = none := by
  have h := rpc_no_post_before_postURL ⟨none, none, []⟩ 1234 "tools/call" none []
    ⟨none, none, false⟩ 99 "initialize" (.obj []) rfl rfl
  exact ⟨h.1, h.2.2⟩

/-- C9: a reply carrying an `error` field makes `call_tool` (and likewise
`read_resource`) return the JSON-serialized `error` field; both are total
functions of the reply, so an application-level error reply is surfaced as
data and never raised. -/
theorem callTool_error_returned (resp : Json)
    (h : jsonHasKey resp "error" = true) :
    callToolResult resp = jdumps (jsonGetD resp "error" .null) ∧
    readResourceResult resp = jdumps (jsonGetD resp "error" .null) := by
  constructor
  · simp [callToolResult, h]
  · simp [readResourceResult, h]

/-- C9 witness: the spec's example reply with
`"error": {"code": -32000, "message": "boom"}` yields exactly that object
serialized. -/
theorem callTool_error_returned_witness :
    jsonHasKey (Json.obj [("jsonrpc", .str "2.0"), ("id", .num 5),
        ("error", .obj [("code", .num (-32000)), ("message", .str "boom")])])
      "error" = true ∧
    callToolResult (Json.obj [("jsonrpc", .str "2.0"), ("id", .num 5),
        ("error", .obj [("code", .num (-32000)), ("message", .str "boom")])]) =
      "\x7b\"code\": -32000, \"message\": \"boom\"\x7d" := by
  refine ⟨by decide, ?_⟩
  have h := callTool_error_returned (Json.obj [("jsonrpc", .str "2.0"), ("id", .num 5),
    ("error", .obj [("code", .num (-32000)), ("message", .str "boom")])]) (by decide)
  exact h.1.trans (by decide)

/-- C8 counterexample: the claim that every allocated request id differs
from every other in-flight id is false — two `rpc` calls entered in the same
millisecond (here both at clock reading 1700000000000 ms, the second while
the first, with a 10-second timeout window, is still in flight) receive the
same id `int(time.time() * 1000) % 2_147_483_647`. -/
theorem allocId_in_flight_collision :
    ¬ (∀ t1 win t2 : Nat, t1 ≤ t2 → t2 < t1 + win →
        mcAllocId t1 ≠ mcAllocId t2) := by
  intro h
  exact h 1700000000000 10000 1700000000000 le_rfl (by omega) rfl

/-- C8 (amended): ids allocated at strictly different millisecond clock
readings less than 2_147_483_647 ms apart are distinct; two calls that read
the clock in the same millisecond (or at readings congruent modulo
2_147_483_647) receive the same id, so a pending entry can be silently
overwritten in that case. -/
theorem allocId_distinct_within_modulus (t1 t2 : Nat)
    (hlt : t1 < t2) (hspan : t2 - t1 < 2147483647) :
    mcAllocId t1 ≠ mcAllocId t2 := by
  intro h
  have hmod : Nat.ModEq 2147483647 t1 t2 := h
  have hdvd : (2147483647 : Nat) ∣ (t2 - t1) := (Nat.modEq_iff_dvd' hlt.le).mp hmod
  have hle : (2147483647 : Nat) ≤ t2 - t1 := Nat.le_of_dvd (by omega) hdvd
  omega

/-- C8 amended-claim witness: clock readings one millisecond apart give
distinct request ids. -/
theorem allocId_distinct_within_modulus_witness :
    1000 < 1001 ∧ 1001 - 1000 < 2147483647 ∧ mcAllocId 1000 ≠ mcAllocId 1001 :=
  ⟨by decide, by decide, allocId_distinct_within_modulus 1000 1001 (by decide) (by decide)⟩

/-- C2: with a post URL set, an `rpc` call either pops and returns the
`_responses` entry for its own request id — the returned state holding the
table with that entry removed — or, when every observed snapshot (one before
the first wait and one after each wait increment, until the deadline) lacks
the entry, raises the timeout error naming the method; in particular a
response present in any observed snapshot, whether stored before the wait
began or between waits, is returned rather than timed out. -/
theorem rpc_own_entry_or_timeout (st : MCState) (nowMs : Nat) (method : String)
    (params? : Option Json) (tables : List Table) (u : String)
    (hurl : st.post_url = some u) (hne : u ≠ "") :
    (∀ m, (mcRpc st nowMs method params? tables).2 = .timedOut m →
        m = method ∧ ∀ t ∈ tables, dictLookup t (.num (mcAllocId nowMs)) = none) ∧
    (∀ v st', (mcRpc st nowMs method params? tables).2 = .success v st' →
        ∃ t ∈ tables, dictLookup t (.num (mcAllocId nowMs)) = some v ∧
          st'.responses = dictErase t (.num (mcAllocId nowMs))) ∧
    ((∃ t ∈ tables, (dictLookup t (.num (mcAllocId nowMs))).isSome) →
        ∃ v st', (mcRpc st nowMs method params? tables).2 = .success v st') := by
  refine ⟨?_, ?_, ?_⟩
  · intro m hm
    rcases hr : rpcLoop (.num (mcAllocId nowMs)) tables with _ | r
    · have : m = method := by
        simp [mcRpc, mcPost, hurl, hne, hr] at hm
        exact hm.symm
      exact ⟨this, rpcLoop_none_all _ _ hr⟩
    · simp [mcRpc, mcPost, hurl, hne, hr] at hm
  · intro v st' hs
    rcases hr : rpcLoop (.num (mcAllocId nowMs)) tables with _ | r
    · simp [mcRpc, mcPost, hurl, hne, hr] at hs
    · obtain ⟨w, t'⟩ := r
      have hvw : w = v ∧ ({ st with responses := t' } : MCState) = st' := by
        simpa [mcRpc, mcPost, hurl, hne, hr] using hs
      rcases rpcLoop_some_src _ _ _ _ hr with ⟨t, hmem, hfound, ht'⟩
      refine ⟨t, hmem, by rw [← hvw.1]; exact hfound, ?_⟩
      rw [← hvw.2]
      simpa using ht'
  · intro hex
    rcases rpcLoop_found _ _ hex with ⟨⟨v, t'⟩, hr⟩
    exact ⟨v, { st with responses := t' }, by simp [mcRpc, mcPost, hurl, hne, hr]⟩

/-- C2 witness: a response stored in the snapshot observed before the first
wait is returned with the entry consumed; a run whose snapshots never
contain the id times out naming the method. -/
theorem rpc_own_entry_or_timeout_witness :
    ((⟨some "http://u", none, []⟩ : MCState).post_url = some "http://u") ∧
    (mcRpc ⟨some "http://u", none, []⟩ 5 "tools/call" none
        [[(.num 5, .obj [("id", .num 5), ("result", .num 1)])]]).2 =
      .success (.obj [("id", .num 5), ("result", .num 1)]) ⟨some "http://u", none, []⟩ ∧
    (mcRpc ⟨some "http://u", none, []⟩ 5 "tools/call" none [[], []]).2 =
      .timedOut "tools/call" := by
  have h1 := (rpc_own_entry_or_timeout ⟨some "http://u", none, []⟩ 5 "tools/call" none
    [[(.num 5, .obj [("id", .num 5), ("result", .num 1)])]] "http://u" rfl (by decide)).2.2
    ⟨[(.num 5, .obj [("id", .num 5), ("result", .num 1)])], by decide⟩
  have h2 := (rpc_own_entry_or_timeout ⟨some "http://u", none, []⟩ 5 "tools/call" none
    [[], []] "http://u" rfl (by decide)).1
  refine ⟨rfl, by decide, by decide⟩

/-- C10: a successful `rpc` call leaves `post_url` and `session_id` exactly
as they were, removes the entry for its own request id from the table it
found it in, and leaves the entry of every other id unchanged. -/
theorem rpc_frame_effect (st : MCState) (nowMs : Nat) (method : String)
    (params? : Option Json) (tables : List Table) (sends : List (String × Json))
    (v : Json) (st' : MCState)
    (h : mcRpc st nowMs method params? tables = (sends, .success v st')) :
    st'.post_url = st.post_url ∧ st'.session_id = st.session_id ∧
    dictLookup st'.responses (.num (mcAllocId nowMs)) = none ∧
    ∃ t ∈ tables, dictLookup t (.num (mcAllocId nowMs)) = some v ∧
      ∀ k, k ≠ .num (mcAllocId nowMs) → dictLookup st'.responses k = dictLookup t k := by
  rcases hpu : st.post_url with _ | u
  · simp [mcRpc, mcPost, hpu] at h
  · by_cases hu : u = ""
    · simp [mcRpc, mcPost, hpu, hu] at h
    · rcases hr : rpcLoop (.num (mcAllocId nowMs)) tables with _ | r
      · simp [mcRpc, mcPost, hpu, hu, hr] at h
      · obtain ⟨w, t'⟩ := r
        have hvw : w = v ∧
            ({ post_url := some u, session_id := st.session_id,
               responses := t' } : MCState) = st' := by
          have := h
          simp [mcRpc, mcPost, hpu, hu, hr] at this
          exact ⟨this.2.1, this.2.2⟩
        rcases rpcLoop_some_src _ _ _ _ hr with ⟨t, hmem, hfound, ht'⟩
        have hresp : st'.responses = dictErase t (.num (mcAllocId nowMs)) := by
          rw [← hvw.2]; simpa using ht'
        have hpost : st'.post_url = some u := by rw [← hvw.2]
        refine ⟨hpost, by rw [← hvw.2], ?_, t, hmem, ?_, ?_⟩
        · rw [hresp]; exact dictLookup_erase_self _ _
        · rw [← hvw.1]; exact hfound
        · intro k hk
          rw [hresp]
          exact dictLookup_erase_ne _ _ _ (fun he => hk he.symm)

/-- C5: an `endpoint` frame resolves its payload against the server base URL,
adopts the `session_id` query parameter when one is present (leaving
`session_id` alone otherwise), unconditionally sets `post_url` to the
absolute URL and notifies all waiters; on the spec's example, payload
`/mcp/message?session_id=abc123` against base `http://host:8000` yields post
URL `http://host:8000/mcp/message?session_id=abc123` and session id
`abc123` (and `client.py`'s listener additionally sets the readiness
event). -/
theorem endpoint_frame_resolution (p : String → Option Json) (base : String)
    (st : MCState) (d : String) :
    mcHandleFrame p base st ⟨"endpoint", d⟩ =
      ({ post_url := some (urljoinM base d),
         session_id :=
           match parse_qs_get (urlsplitM (urljoinM base d)).query "session_id" with
           | s :: _ => some s
           | [] => st.session_id,
         responses := st.responses }, [.notifyAll]) ∧
    urljoinM "http://host:8000" "/mcp/message?session_id=abc123" =
      "http://host:8000/mcp/message?session_id=abc123" ∧
    (mcHandleFrame p "http://host:8000" st
        ⟨"endpoint", "/mcp/message?session_id=abc123"⟩).1.session_id =
      some "abc123" ∧
    (listenHandleFrame ⟨none, none, false⟩
        ⟨"endpoint", "/mcp/message?session_id=abc123"⟩).ready = true := by
  have hgen : ∀ b dd : String, mcHandleFrame p b st ⟨"endpoint", dd⟩ =
      ({ post_url := some (urljoinM b dd),
         session_id :=
           match parse_qs_get (urlsplitM (urljoinM b dd)).query "session_id" with
           | s :: _ => some s
           | [] => st.session_id,
         responses := st.responses }, [.notifyAll]) := by
    intro b dd
    rcases hq : parse_qs_get (urlsplitM (urljoinM b dd)).query "session_id" with _ | ⟨s, rest⟩
    · simp [mcHandleFrame, hq]
    · simp [mcHandleFrame, hq]
  refine ⟨hgen base d, by decide, ?_, by decide⟩
  rw [hgen "http://host:8000" "/mcp/message?session_id=abc123"]
  have hq : parse_qs_get
      (urlsplitM (urljoinM "http://host:8000" "/mcp/message?session_id=abc123")).query
      "session_id" = ["abc123"] := by decide
  simp [hq]

/-- C6 counterexample: the storage key is NOT coerced to the table's numeric
id type.  A `message` frame whose parsed payload is `{"id": "7"}` — the id a
JSON string — is stored under the string key itself: the table then has no
entry under the numeric id `7` (where coercion to the `Dict[int, ...]` key
type would have put it), only one under the string `"7"`. -/
theorem message_id_not_coerced :
    dictLookup ((mcHandleFrame (fun _ => some (.obj [("id", .str "7")])) "http://h"
        ⟨none, none, []⟩ ⟨"message", "x"⟩).1).responses (.num 7) = none ∧
    dictLookup ((mcHandleFrame (fun _ => some (.obj [("id", .str "7")])) "http://h"
        ⟨none, none, []⟩ ⟨"message", "x"⟩).1).responses (.str "7") =
      some (.obj [("id", .str "7")]) := by
  constructor
  · decide
  · decide

/-- C6 (amended): a `message` frame parses its payload, wrapping the raw
payload as `{"malformed": data}` instead of raising when parsing fails; a
parsed dict containing an `id` field is stored in the table keyed by that id
value exactly as parsed (no coercion to the table's numeric id type) and all
waiters are notified; a parsed value without an `id` field — including the
malformed-wrapper and non-dict payloads — is never stored. -/
theorem message_frame_storage (p : String → Option Json) (base : String)
    (st : MCState) (d : String) :
    (∀ msg, p d = some msg → jsonHasKey msg "id" = true →
        mcHandleFrame p base st ⟨"message", d⟩ =
          ({ st with responses := dictInsert st.responses (jsonGetD msg "id" .null) msg },
            [.notifyAll])) ∧
    (∀ msg, p d = some msg → jsonHasKey msg "id" = false →
        mcHandleFrame p base st ⟨"message", d⟩ = (st, [])) ∧
    (p d = none →
        mcMessageValue p d = .obj [("malformed", .str d)] ∧
        mcHandleFrame p base st ⟨"message", d⟩ = (st, [])) := by
  refine ⟨?_, ?_, ?_⟩
  · intro msg hp hk
    exact mcHandleFrame_message_store p base st d msg hp hk
  · intro msg hp hk
    cases msg with
    | obj fs => simp [mcHandleFrame, mcMessageValue, hp, hk]
    | null => simp [mcHandleFrame, mcMessageValue, hp]
    | bool b => simp [mcHandleFrame, mcMessageValue, hp]
    | num n => simp [mcHandleFrame, mcMessageValue, hp]
    | str s => simp [mcHandleFrame, mcMessageValue, hp]
    | arr xs => simp [mcHandleFrame, mcMessageValue, hp]
  · intro hp
    refine ⟨by simp [mcMessageValue, hp], ?_⟩
    simp [mcHandleFrame, mcMessageValue, hp, jsonHasKey]

/-- C6 amended-claim witness: a well-formed response with numeric id 7 is
stored under that id with a notification; an id-less notification payload
is not stored; an unparsable payload is wrapped, not stored. -/
theorem message_frame_storage_witness :
    mcHandleFrame (fun _ => some (.obj [("id", .num 7), ("result", .num 1)])) "b"
        ⟨none, none, []⟩ ⟨"message", "x"⟩ =
      (⟨none, none, [(.num 7, .obj [("id", .num 7), ("result", .num 1)])]⟩,
        [.notifyAll]) ∧
    mcHandleFrame (fun _ => some (.obj [("method", .str "ping")])) "b"
        ⟨none, none, []⟩ ⟨"message", "x"⟩ = (⟨none, none, []⟩, []) ∧
    mcHandleFrame (fun _ => none) "b" ⟨none, none, []⟩ ⟨"message", "oops"⟩ =
      (⟨none, none, []⟩, []) := by
  refine ⟨?_, ?_, ?_⟩
  · have h := (message_frame_storage (fun _ => some (.obj [("id", .num 7), ("result", .num 1)]))
      "b" ⟨none, none, []⟩ "x").1 (.obj [("id", .num 7), ("result", .num 1)]) rfl (by decide)
    exact h.trans (by decide)
  · exact (message_frame_storage (fun _ => some (.obj [("method", .str "ping")]))
      "b" ⟨none, none, []⟩ "x").2.1 (.obj [("method", .str "ping")]) rfl (by decide)
  · exact ((message_frame_storage (fun _ => none) "b" ⟨none, none, []⟩ "oops").2.2 rfl).2

/-- C7: a frame whose event type is one of the legacy session-id synonyms
(`session-id`, `mcp-session-id`, `mcp_session_id`) makes `client.py`'s
listener adopt the payload as the session id while leaving the readiness
event and the post URL untouched; the readiness event transitions to set
only on an `endpoint` frame; and `MCPClient`'s listener dispatches no state
change and no notification at all for such frames, so there too only an
`endpoint` frame can unblock a caller waiting on session readiness. -/
theorem legacy_session_id_no_ready (st : PyState) (f : Frame)
    (hleg : f.event = "mcp-session-id" ∨ f.event = "session-id" ∨
      f.event = "mcp_session_id") :
    listenHandleFrame st f = { st with sid := some f.data } ∧
    (∀ (st₀ : PyState) (f₀ : Frame), (listenHandleFrame st₀ f₀).ready = true →
        st₀.ready = true ∨ f₀.event = "endpoint") ∧
    (∀ (p : String → Option Json) (base : String) (stm : MCState),
        mcHandleFrame p base stm f = (stm, [])) := by
  refine ⟨?_, ?_, ?_⟩
  · simp [listenHandleFrame, hleg]
  · intro st₀ f₀ h
    by_cases h₁ : f₀.event = "mcp-session-id" ∨ f₀.event = "session-id" ∨
        f₀.event = "mcp_session_id"
    · left
      simpa [listenHandleFrame, h₁] using h
    · by_cases h₂ : f₀.event = "endpoint"
      · right; exact h₂
      · left
        simpa [listenHandleFrame, h₁, h₂] using h
  · intro p base stm
    have h₁ : f.event ≠ "endpoint" := by
      rcases hleg with h | h | h <;> rw [h] <;> decide
    have h₂ : f.event ≠ "message" := by
      rcases hleg with h | h | h <;> rw [h] <;> decide
    simp [mcHandleFrame, h₁, h₂]

/-- C7 witness: a `session-id` frame adopts the payload as the session id
and leaves a not-yet-ready session unready, with `MCPClient` ignoring it. -/
theorem legacy_session_id_no_ready_witness :
    listenHandleFrame ⟨none, none, false⟩ ⟨"session-id", "xyz"⟩ =
      ⟨some "xyz", none, false⟩ ∧
    mcHandleFrame (fun _ => none) "http://h" ⟨none, none, []⟩
      ⟨"session-id", "xyz"⟩ = (⟨none, none, []⟩, []) := by
  have h := legacy_session_id_no_ready ⟨none, none, false⟩ ⟨"session-id", "xyz"⟩
    (Or.inr (Or.inl rfl))
  exact ⟨h.1, h.2.2 (fun _ => none) "http://h" ⟨none, none, []⟩⟩

/-! ## Frame-level description of the framing loop (for C4) -/

/-- The payload the given label contributes to a dispatched frame: among the
block's lines (stripped), the LAST one carrying the label, its payload
extracted the way the loop extracts it — drop the `n`-character
label-with-space, strip the remainder. -/
def lastPayload (lab : String) (n : Nat) (b : List String) : Option String :=
  ((b.reverse.map strStrip).find? (fun l => strStartsWith l lab)).map
    (fun l => strStrip (strDrop l n))

/-- The frame a block of non-blank lines yields at its terminating blank
line: the last-seen event and data payloads, or nothing (the frame is
discarded) when either label never occurred in the block. -/
def blockFrame (b : List String) : Option Frame :=
  match lastPayload "event:" 7 b, lastPayload "data:" 6 b with
  | some e, some d => some ⟨e, d⟩
  | _, _ => none

/-- A sequence of blocks each terminated by one blank line. -/
def encodeBlocks (blocks : List (List String)) : List String :=
  (blocks.map (fun b => b ++ [""])).flatten

theorem startsWithL_disjoint (cs : List Char) (c1 c2 : Char) (p1 p2 : List Char)
    (hne : c1 ≠ c2) (h : startsWithL cs (c1 :: p1) = true) :
    startsWithL cs (c2 :: p2) = false := by
  cases cs with
  | nil => simp [startsWithL] at h
  | cons c rest =>
      simp only [startsWithL, Bool.and_eq_true_iff, beq_iff_eq] at h
      rcases h with ⟨rfl, -⟩
      simp [startsWithL, hne]

theorem event_not_data (x : String) (h : strStartsWith x "event:" = true) :
    strStartsWith x "data:" = false := by
  have he : ("event:" : String).data = ['e', 'v', 'e', 'n', 't', ':'] := rfl
  have hd : ("data:" : String).data = ['d', 'a', 't', 'a', ':'] := rfl
  unfold strStartsWith at h ⊢
  rw [he] at h
  rw [hd]
  exact startsWithL_disjoint _ 'e' 'd' _ _ (by decide) h

theorem lastPayload_cons (lab : String) (n : Nat) (l : String) (rest : List String) :
    lastPayload lab n (l :: rest) =
      Option.or (lastPayload lab n rest)
        (if strStartsWith (strStrip l) lab then
          some (strStrip (strDrop (strStrip l) n)) else none) := by
  unfold lastPayload
  rw [List.reverse_cons, List.map_append, List.find?_append, Option.map_or']
  by_cases hq : strStartsWith (strStrip l) lab
  · simp [hq]
  · simp [hq]

theorem runLines_append (cur : CurEvent) (xs ys : List String) :
    runLines cur (xs ++ ys) =
      ((runLines (runLines cur xs).1 ys).1,
        (runLines cur xs).2 ++ (runLines (runLines cur xs).1 ys).2) := by
  induction xs generalizing cur with
  | nil => simp [runLines]
  | cons l ls ih => simp [runLines, ih]

theorem runLines_block (b : List String) (e0 d0 : Option String)
    (h : ∀ l ∈ b, strStrip l ≠ "") :
    runLines (e0, d0) b =
      (((lastPayload "event:" 7 b).or e0, (lastPayload "data:" 6 b).or d0), []) := by
  induction b generalizing e0 d0 with
  | nil => simp [runLines, lastPayload]
  | cons l rest ih =>
      have hl : strStrip l ≠ "" := h l (List.mem_cons_self l rest)
      have hrest : ∀ x ∈ rest, strStrip x ≠ "" :=
        fun x hx => h x (List.mem_cons_of_mem _ hx)
      rw [lastPayload_cons, lastPayload_cons]
      by_cases hev : strStartsWith (strStrip l) "event:"
      · have hnd := event_not_data _ hev
        have hrun : runLines (e0, d0) (l :: rest) =
            runLines (some (strStrip (strDrop (strStrip l) 7)), d0) rest := by
          simp [runLines, stepLine, hl, hev]
        rw [hrun, ih _ _ hrest]
        simp [hev, hnd, Option.or_assoc]
      · by_cases hdat : strStartsWith (strStrip l) "data:"
        · have hrun : runLines (e0, d0) (l :: rest) =
              runLines (e0, some (strStrip (strDrop (strStrip l) 6))) rest := by
            simp [runLines, stepLine, hl, hev, hdat]
          rw [hrun, ih _ _ hrest]
          simp [hev, hdat, Option.or_assoc]
        · have hrun : runLines (e0, d0) (l :: rest) = runLines (e0, d0) rest := by
            simp [runLines, stepLine, hl, hev, hdat]
          rw [hrun, ih _ _ hrest]
          simp [hev, hdat]

/-- C4: feeding the listener any sequence of blocks of non-blank lines, each
terminated by one blank line, dispatches exactly the frames described block
by block: one frame per terminator carrying the LAST event and data payloads
seen before it, with a block missing either field discarded at its
terminator, lines carrying neither label ignored without terminating the
frame being built, and the accumulator empty again at the end. -/
theorem sse_one_frame_per_terminator (blocks : List (List String))
    (h : ∀ b ∈ blocks, ∀ l ∈ b, strStrip l ≠ "") :
    runLines (none, none) (encodeBlocks blocks) =
      ((none, none), blocks.filterMap blockFrame) := by
  induction blocks with
  | nil => simp [encodeBlocks, runLines]
  | cons b rest ih =>
      have hb : ∀ l ∈ b, strStrip l ≠ "" := h b (List.mem_cons_self _ _)
      have hrest : ∀ b' ∈ rest, ∀ l ∈ b', strStrip l ≠ "" :=
        fun b' hb' => h b' (List.mem_cons_of_mem _ hb')
      have henc : encodeBlocks (b :: rest) = (b ++ [""]) ++ encodeBlocks rest := by
        simp [encodeBlocks]
      have hss : strStrip "" = "" := rfl
      have h1 : runLines (none, none) (b ++ [""]) =
          ((none, none), (blockFrame b).toList) := by
        rw [runLines_append, runLines_block b none none hb]
        rcases hE : lastPayload "event:" 7 b with _ | e <;>
          rcases hD : lastPayload "data:" 6 b with _ | d <;>
            simp [runLines, stepLine, blockFrame, hE, hD, hss, Option.or_none]
      rw [henc, runLines_append, h1]
      rw [ih hrest]
      rcases hbf : blockFrame b with _ | f <;> simp [List.filterMap_cons, hbf]

/-- C4 witness: two blocks — the first with an overwritten data field and a
junk line, the second missing its event field — dispatch exactly one frame,
carrying the last-seen payloads of the first block. -/
theorem sse_one_frame_per_terminator_witness :
    runLines (none, none)
      (encodeBlocks [["event: message", "x-junk", "data: one", "data: two"],
        ["data: lonely"]]) =
      ((none, none), [⟨"message", "two"⟩]) := by
  have h := sse_one_frame_per_terminator
    [["event: message", "x-junk", "data: one", "data: two"], ["data: lonely"]]
    (by decide)
  rw [h]
  decide

/-- C1: two `rpc` calls with distinct request ids whose response frames
arrive on the stream in reverse order of the requests (the second call's
response first) each return exactly the response object whose `id` equals
their own request id: after the listener stores both frames, the first call
pops its own response `m1` and the second call then pops its own `m2` —
never the other one. -/
theorem rpc_correlation_reverse_arrival (p : String → Option Json)
    (base u : String) (st : MCState) (d1 d2 mA mB : String) (pA pB : Option Json)
    (m1 m2 : Json) (now1 now2 : Nat)
    (h1 : p d1 = some m1) (h2 : p d2 = some m2)
    (hk1 : jsonHasKey m1 "id" = true) (hk2 : jsonHasKey m2 "id" = true)
    (hv1 : jsonGetD m1 "id" .null = .num (mcAllocId now1))
    (hv2 : jsonGetD m2 "id" .null = .num (mcAllocId now2))
    (hne : mcAllocId now1 ≠ mcAllocId now2)
    (hurl : st.post_url = some u) (hu : u ≠ "") :
    ∃ stA stB,
      (mcRpc ((mcHandleFrame p base ((mcHandleFrame p base st ⟨"message", d2⟩).1)
          ⟨"message", d1⟩).1) now1 mA pA
        [((mcHandleFrame p base ((mcHandleFrame p base st ⟨"message", d2⟩).1)
          ⟨"message", d1⟩).1).responses]).2 = .success m1 stA ∧
      (mcRpc stA now2 mB pB [stA.responses]).2 = .success m2 stB := by
  have hkne : (Json.num (mcAllocId now1)) ≠ Json.num (mcAllocId now2) := by
    intro hh
    exact hne (by exact_mod_cast Json.num.inj hh)
  have hins2 := mcHandleFrame_message_store p base st d2 m2 h2 hk2
  rw [hv2] at hins2
  have e1 : (mcHandleFrame p base st ⟨"message", d2⟩).1 =
      ⟨st.post_url, st.session_id,
        dictInsert st.responses (.num (mcAllocId now2)) m2⟩ := by
    rw [hins2]
  have hins1 := mcHandleFrame_message_store p base
    (⟨st.post_url, st.session_id,
      dictInsert st.responses (.num (mcAllocId now2)) m2⟩ : MCState) d1 m1 h1 hk1
  rw [hv1] at hins1
  have e2 : (mcHandleFrame p base
      (⟨st.post_url, st.session_id,
        dictInsert st.responses (.num (mcAllocId now2)) m2⟩ : MCState)
      ⟨"message", d1⟩).1 =
      ⟨st.post_url, st.session_id,
        dictInsert (dictInsert st.responses (.num (mcAllocId now2)) m2)
          (.num (mcAllocId now1)) m1⟩ := by
    rw [hins1]
  rw [e1, e2]
  have hpop1 : dictPop
      (dictInsert (dictInsert st.responses (.num (mcAllocId now2)) m2)
        (.num (mcAllocId now1)) m1) (.num (mcAllocId now1)) =
      some (m1, dictErase
        (dictInsert (dictInsert st.responses (.num (mcAllocId now2)) m2)
          (.num (mcAllocId now1)) m1) (.num (mcAllocId now1))) :=
    dictPop_eq_some _ _ _ (dictLookup_insert_self _ _ _)
  have hl2 : dictLookup
      (dictErase (dictInsert (dictInsert st.responses (.num (mcAllocId now2)) m2)
        (.num (mcAllocId now1)) m1) (.num (mcAllocId now1)))
      (.num (mcAllocId now2)) = some m2 := by
    rw [dictLookup_erase_ne _ _ _ hkne]
    rw [dictLookup_insert_ne _ _ _ _ hkne]
    exact dictLookup_insert_self _ _ _
  have hpop2 := dictPop_eq_some _ _ _ hl2
  refine ⟨⟨st.post_url, st.session_id,
      dictErase (dictInsert (dictInsert st.responses (.num (mcAllocId now2)) m2)
        (.num (mcAllocId now1)) m1) (.num (mcAllocId now1))⟩,
    ⟨st.post_url, st.session_id,
      dictErase (dictErase (dictInsert (dictInsert st.responses
          (.num (mcAllocId now2)) m2) (.num (mcAllocId now1)) m1)
        (.num (mcAllocId now1))) (.num (mcAllocId now2))⟩, ?_, ?_⟩
  · simp [mcRpc, mcPost, hurl, hu, rpcLoop, hpop1]
  · simp [mcRpc, mcPost, hurl, hu, rpcLoop, hpop2]

/-- C1 witness: with responses for ids 1 and 2 arriving in reverse order,
the call with id 1 gets `{"id": 1, "result": "one"}` and the call with id 2
gets `{"id": 2, "result": "two"}`. -/
theorem rpc_correlation_reverse_arrival_witness :
    ∃ stA stB,
      (mcRpc ((mcHandleFrame
          (fun s => if s = "r1" then some (.obj [("id", .num 1), ("result", .str "one")])
            else some (.obj [("id", .num 2), ("result", .str "two")]))
          "http://h"
          ((mcHandleFrame
            (fun s => if s = "r1" then some (.obj [("id", .num 1), ("result", .str "one")])
              else some (.obj [("id", .num 2), ("result", .str "two")]))
            "http://h" ⟨some "http://u", none, []⟩ ⟨"message", "r2"⟩).1)
          ⟨"message", "r1"⟩).1) 1 "a" none
        [((mcHandleFrame
          (fun s => if s = "r1" then some (.obj [("id", .num 1), ("result", .str "one")])
            else some (.obj [("id", .num 2), ("result", .str "two")]))
          "http://h"
          ((mcHandleFrame
            (fun s => if s = "r1" then some (.obj [("id", .num 1), ("result", .str "one")])
              else some (.obj [("id", .num 2), ("result", .str "two")]))
            "http://h" ⟨some "http://u", none, []⟩ ⟨"message", "r2"⟩).1)
          ⟨"message", "r1"⟩).1).responses]).2 =
        .success (.obj [("id", .num 1), ("result", .str "one")]) stA ∧
      (mcRpc stA 2 "b" none [stA.responses]).2 =
        .success (.obj [("id", .num 2), ("result", .str "two")]) stB :=
  rpc_correlation_reverse_arrival
    (fun s => if s = "r1" then some (.obj [("id", .num 1), ("result", .str "one")])
      else some (.obj [("id", .num 2), ("result", .str "two")]))
    "http://h" "http://u" ⟨some "http://u", none, []⟩ "r1" "r2" "a" "b" none none
    (.obj [("id", .num 1), ("result", .str "one")])
    (.obj [("id", .num 2), ("result", .str "two")]) 1 2
    (by decide) (by decide) (by decide) (by decide) (by decide) (by decide)
    (by decide) rfl (by decide)

/-- C10 witness: a concrete successful call pops only its own entry and
leaves the session fields and the other pending entry in place. -/
theorem rpc_frame_effect_witness :
    (mcRpc ⟨some "http://u", some "sid", []⟩ 5 "m" none
        [[(.num 5, .obj [("id", .num 5)]), (.num 6, .obj [("id", .num 6)])]]).2 =
      .success (.obj [("id", .num 5)])
        ⟨some "http://u", some "sid", [(.num 6, .obj [("id", .num 6)])]⟩ ∧
    ((⟨some "http://u", some "sid", [(.num 6, .obj [("id", .num 6)])]⟩ : MCState).post_url =
        some "http://u" ∧
      dictLookup [((.num 6 : Json), (.obj [("id", .num 6)] : Json))] (.num 6) =
        some (.obj [("id", .num 6)])) := by
  have h := rpc_frame_effect ⟨some "http://u", some "sid", []⟩ 5 "m" none
    [[(.num 5, .obj [("id", .num 5)]), (.num 6, .obj [("id", .num 6)])]]
    [("http://u", rpcPayload 5 "m" none)] (.obj [("id", .num 5)])
    ⟨some "http://u", some "sid", [(.num 6, .obj [("id", .num 6)])]⟩ (by decide)
  exact ⟨by decide, h.1, by decide⟩
